import Mathlib

set_option maxRecDepth 16384
set_option maxHeartbeats 2000000

namespace FilterBurgers

/-! Shallow embedding of the content-extraction and classification core of the
repository: `src/classify.ts` (URL classifier) and `src/parse.ts` (HTML parser).
Machine strings are Lean `String`s (lists of characters); the JavaScript regular
expressions of the source are embedded as deterministic scanners that realise
each pattern's match semantics.  The ambient clock read by the source
(`new Date().toISOString()`) is passed in as an explicit `now` argument. -/

/-- Case-sensitive test that `pat` is a prefix of `s`. -/
def lStarts (pat s : List Char) : Bool :=
  match pat, s with
  | [], _ => true
  | _ :: _, [] => false
  | p :: ps, c :: cs => p == c && lStarts ps cs

/-- Case-sensitive substring occurrence, the embedding of JavaScript
`String.prototype.includes` / `indexOf(...) !== -1`. -/
def lContains (pat : List Char) : List Char → Bool
  | [] => lStarts pat []
  | c :: cs => lStarts pat (c :: cs) || lContains pat cs

/-- JavaScript `s.includes(pat)` on Lean strings. -/
def strContains (s pat : String) : Bool := lContains pat.data s.data

/-- JavaScript `s.endsWith(pat)` on Lean strings. -/
def strEndsWith (s pat : String) : Bool := lStarts pat.data.reverse s.data.reverse

/-- Split at the first case-sensitive occurrence of `pat`: returns the part
before the occurrence and the part after it. -/
def lSplitFirst (pat : List Char) : List Char → Option (List Char × List Char)
  | [] => if lStarts pat [] then some ([], []) else none
  | c :: cs =>
    if lStarts pat (c :: cs) then some ([], (c :: cs).drop pat.length)
    else
      match lSplitFirst pat cs with
      | some (pre, post) => some (c :: pre, post)
      | none => none

/-- Case-insensitive prefix test; the pattern is given lower-cased and each
subject character is lowered before comparison (JavaScript regex flag `i`). -/
def ciStarts (pat s : List Char) : Bool :=
  match pat, s with
  | [], _ => true
  | _ :: _, [] => false
  | p :: ps, c :: cs => c.toLower == p && ciStarts ps cs

/-- Split at the first case-insensitive occurrence of `pat`. -/
def ciSplitFirst (pat : List Char) : List Char → Option (List Char × List Char)
  | [] => if ciStarts pat [] then some ([], []) else none
  | c :: cs =>
    if ciStarts pat (c :: cs) then some ([], (c :: cs).drop pat.length)
    else
      match ciSplitFirst pat cs with
      | some (pre, post) => some (c :: pre, post)
      | none => none

/-! URL classifier, from `src/classify.ts`.  Each source rule is a Bool
predicate over the already lower-cased URL; the regex alternations
`(careers|jobs|greenhouse\.io|lever\.co)` and `(ads?|advertis)` test whether
some alternative occurs as a substring. -/

inductive LinkType | pdf | x | reddit | job | advertiser | article
deriving DecidableEq

/-- Rule 1 of classify: `s.endsWith('.pdf') || s.includes('/pdf')`. -/
def pdfRule (s : String) : Bool := strEndsWith s ".pdf" || strContains s "/pdf"

/-- Rule 2 of classify: `s.includes('x.com') || s.includes('twitter.com')`. -/
def xRule (s : String) : Bool := strContains s "x.com" || strContains s "twitter.com"

/-- Rule 3 of classify: `s.includes('reddit.com')`. -/
def redditRule (s : String) : Bool := strContains s "reddit.com"

/-- Rule 4 of classify: regex `(careers|jobs|greenhouse\.io|lever\.co)` tested
against `s`, i.e. one of the four literal alternatives occurs in `s`. -/
def jobRule (s : String) : Bool :=
  strContains s "careers" || strContains s "jobs" ||
    strContains s "greenhouse.io" || strContains s "lever.co"

/-- Rule 5 of classify: regex `(ads?|advertis)` tested against `s`.  The
alternative `ads?` matches `ad` or `ads`, so the test succeeds exactly when
one of the literals `ad`, `ads`, `advertis` occurs in `s`. -/
def adRule (s : String) : Bool :=
  strContains s "ad" || strContains s "ads" || strContains s "advertis"

/-- JavaScript `url.toLowerCase()`: lower-case every character. -/
def jsToLower (s : String) : String := ⟨s.data.map Char.toLower⟩

/-- The classifier of `src/classify.ts`.  The source lower-cases the URL once
(`const s = url.toLowerCase()`) and evaluates the five rules in order, with
`article` as the final catch-all. -/
def classify (url : String) : LinkType :=
  if pdfRule (jsToLower url) then .pdf
  else if xRule (jsToLower url) then .x
  else if redditRule (jsToLower url) then .reddit
  else if jobRule (jsToLower url) then .job
  else if adRule (jsToLower url) then .advertiser
  else .article

/-! Text cleaning, from `cleanText` in `src/parse.ts`. -/

/-- The common members of the JavaScript whitespace class `\s`. -/
def isJsWs (c : Char) : Bool :=
  c == ' ' || c == '\t' || c == '\n' || c == '\r' || c == '\x0b' || c == '\x0c' || c == '\u00A0'

/-- Global replace of `/<[^>]*>/g` by the empty string: an opening angle with a
later closing angle is dropped together with everything between; an opening
angle with no closing angle anywhere later matches nothing and is kept. -/
def dropTags (fuel : Nat) (s : List Char) : List Char :=
  match fuel, s with
  | 0, rest => rest
  | _, [] => []
  | f + 1, c :: cs =>
    if c == '<' then
      match lSplitFirst ['>'] cs with
      | some (_, post) => dropTags f post
      | none => c :: dropTags f cs
    else c :: dropTags f cs

/-- Global case-insensitive replace of the literal `&nbsp;` by a space. -/
def replaceNbsp (fuel : Nat) (s : List Char) : List Char :=
  match fuel, s with
  | 0, rest => rest
  | _, [] => []
  | f + 1, c :: cs =>
    if ciStarts "&nbsp;".data (c :: cs) then ' ' :: replaceNbsp f ((c :: cs).drop 6)
    else c :: replaceNbsp f cs

/-- Character class `[#a-z0-9]` of the entity regex, with the `i` flag. -/
def isEntityChar (c : Char) : Bool :=
  (decide ('a' ≤ c.toLower) && decide (c.toLower ≤ 'z')) ||
    (decide ('0' ≤ c) && decide (c ≤ '9')) || c == '#'

/-- Global replace of `/&[#a-z0-9]+;/gi` by a space: an ampersand followed by a
maximal nonempty run of entity characters and then a semicolon becomes one
space; any other ampersand is kept. -/
def replaceEntities (fuel : Nat) (s : List Char) : List Char :=
  match fuel, s with
  | 0, rest => rest
  | _, [] => []
  | f + 1, c :: cs =>
    if c == '&' then
      match cs.takeWhile isEntityChar, cs.dropWhile isEntityChar with
      | _ :: _, ';' :: tail => ' ' :: replaceEntities f tail
      | _, _ => c :: replaceEntities f cs
    else c :: replaceEntities f cs

/-- Global replace of `/\s+/g` by a single space; the Bool argument records
whether the previous character was part of a whitespace run. -/
def collapseWs : List Char → Bool → List Char
  | [], _ => []
  | c :: cs, prevWs =>
    if isJsWs c then
      if prevWs then collapseWs cs true else ' ' :: collapseWs cs true
    else c :: collapseWs cs false

/-- JavaScript `String.prototype.trim`. -/
def trimWs (s : List Char) : List Char :=
  ((s.dropWhile isJsWs).reverse.dropWhile isJsWs).reverse

/-- The shared cleaning primitive `cleanText` of `src/parse.ts`: strip tags,
turn `&nbsp;` into spaces, turn other HTML entities into spaces, collapse
whitespace runs, trim. -/
def cleanText (text : String) : String :=
  if text = "" then ""
  else
    let n := text.data.length + 1
    ⟨trimWs (collapseWs (replaceEntities n (replaceNbsp n (dropTags n text.data))) false)⟩

/-! Meta-tag extraction, from `extractMetaTag` in `src/parse.ts`.  The two
source regexes locate, inside one `<meta ...>` tag, a `name`/`property`
attribute equal to the requested name and a `content` attribute whose quoted
value is captured; variant A expects the name before the content, variant B the
reverse.  The scanners below resolve the regexes' backtracking by left-to-right
search, which coincides with the regex result on tags carrying a single
`name`/`property` and a single `content` attribute. -/

/-- Either quote accepted by the source's `["']` classes. -/
def isQuoteChar (c : Char) : Bool := c == '"' || c.toNat == 39

/-- Test for `KEY` immediately followed by a quoted `value` at the head of `s`
(`KEY` contains its `=`); on success returns the remainder after the closing
quote. -/
def attrValHere (key value : List Char) (s : List Char) : Option (List Char) :=
  if ciStarts key s then
    match s.drop key.length with
    | q :: r =>
      if isQuoteChar q && ciStarts value r then
        match r.drop value.length with
        | q2 :: r2 => if isQuoteChar q2 then some r2 else none
        | [] => none
      else none
    | [] => none
  else none

/-- First occurrence of `name="VALUE"` or `property="VALUE"` (either quote) in
a tag body; returns the remainder after it. -/
def findNamePropVal (value : List Char) : List Char → Option (List Char)
  | [] => none
  | c :: cs =>
    match attrValHere "name=".data value (c :: cs) with
    | some r => some r
    | none =>
      match attrValHere "property=".data value (c :: cs) with
      | some r => some r
      | none => findNamePropVal value cs

/-- Test for `KEY` followed by a quote, a nonempty capture of characters that
are not quotes (`[^"']+`), and a closing quote, at the head of `s`; on success
returns the capture and the remainder after the closing quote. -/
def capHere (key : List Char) (s : List Char) : Option (List Char × List Char) :=
  if ciStarts key s then
    match s.drop key.length with
    | q :: r =>
      if isQuoteChar q then
        match r.takeWhile (fun c => !isQuoteChar c), r.dropWhile (fun c => !isQuoteChar c) with
        | cap@(_ :: _), _ :: tail => some (cap, tail)
        | _, _ => none
      else none
    | [] => none
  else none

/-- First occurrence of `KEY` with a quoted nonempty capture, anywhere in `s`. -/
def findCap (key : List Char) : List Char → Option (List Char × List Char)
  | [] => none
  | c :: cs =>
    match capHere key (c :: cs) with
    | some r => some r
    | none => findCap key cs

/-- Variant A of the meta regex applied to one tag body: the
`name`/`property` attribute comes first, the captured `content` after it. -/
def metaBodyA (name body : List Char) : Option (List Char) :=
  match findNamePropVal name body with
  | some rest => (findCap "content=".data rest).map (·.1)
  | none => none

/-- Variant B of the meta regex applied to one tag body: the captured
`content` attribute comes first, the `name`/`property` attribute after it. -/
def metaBodyB (name body : List Char) : Option (List Char) :=
  match findCap "content=".data body with
  | some (cap, rest) => if (findNamePropVal name rest).isSome then some cap else none
  | none => none

/-- Scan the document for `<meta ...>` tags and apply `step` to each tag body
(the characters between `<meta` and the next `>`), returning the first
success. -/
def scanMetaTags (step : List Char → Option (List Char)) : List Char → Option (List Char)
  | [] => none
  | c :: cs =>
    if ciStarts "<meta".data (c :: cs) then
      match lSplitFirst ['>'] ((c :: cs).drop 5) with
      | some (body, _) =>
        match step body with
        | some cap => some cap
        | none => scanMetaTags step cs
      | none => scanMetaTags step cs
    else scanMetaTags step cs

/-- The source's `extractMetaTag`: variant A over the whole document, then
variant B, the capture cleaned; empty string when neither matches. -/
def extractMetaTag (name html : String) : String :=
  match scanMetaTags (metaBodyA name.data) html.data with
  | some cap => cleanText ⟨cap⟩
  | none =>
    match scanMetaTags (metaBodyB name.data) html.data with
    | some cap => cleanText ⟨cap⟩
    | none => ""

/-! Generic tag-block scanners shared by several extractors. -/

/-- First match of a pattern of the shape `OPEN[^>]*>([\s\S]*?)CLOSE`: at each
case-insensitive occurrence of `OPEN`, skip to the end of the tag and capture
lazily up to the first occurrence of `CLOSE`; if `CLOSE` never occurs the
engine moves on to the next occurrence of `OPEN`. -/
def firstTagBlock (openPat closePat : List Char) : List Char → Option (List Char)
  | [] => none
  | c :: cs =>
    if ciStarts openPat (c :: cs) then
      match lSplitFirst ['>'] ((c :: cs).drop openPat.length) with
      | some (_, afterGt) =>
        match ciSplitFirst closePat afterGt with
        | some (cap, _) => some cap
        | none => firstTagBlock openPat closePat cs
      | none => firstTagBlock openPat closePat cs
    else firstTagBlock openPat closePat cs

/-- Lazy capture up to a generic closing tag, the `([\s\S]*?)<\/[^>]*>` tail
used by several source regexes: capture up to the first `</`, which must be
followed by a `>` somewhere after it. -/
def lazyCapToAnyClose (s : List Char) : Option (List Char) :=
  match lSplitFirst ['<', '/'] s with
  | some (cap, rest) => if (lSplitFirst ['>'] rest).isSome then some cap else none
  | none => none

/-- First keyword of `kws` (in alternation order) matching at the head of `s`. -/
def kwHere (kws : List (List Char)) (s : List Char) : Option (List Char) :=
  kws.find? (fun kw => ciStarts kw s)

/-- First position of `s` at which one of `kws` matches (the source regexes'
greedy backtracking can prefer a later position when several keywords occur in
one class value; the inputs in this development have a single occurrence). -/
def findKwIn (kws : List (List Char)) : List Char → Option (List Char)
  | [] => none
  | c :: cs =>
    match kwHere kws (c :: cs) with
    | some kw => some kw
    | none => findKwIn kws cs

/-- Inside a tag body, find `class="VALUE"` (double quotes, as in the source
patterns) whose value contains one of `kws`; returns the matched keyword. -/
def classKwInBody (kws : List (List Char)) : List Char → Option (List Char)
  | [] => none
  | c :: cs =>
    if ciStarts "class=\"".data (c :: cs) then
      let afterQ := (c :: cs).drop 7
      if (afterQ.dropWhile (fun ch => ch != '"')).isEmpty then classKwInBody kws cs
      else
        match findKwIn kws (afterQ.takeWhile (fun ch => ch != '"')) with
        | some kw => some kw
        | none => classKwInBody kws cs
    else classKwInBody kws cs

/-- First match of a pattern of the shape
`OPEN[^>]*class="[^"]*(kws)[^"]*"[^>]*>([\s\S]*?)CLOSE`, where `CLOSE` is a
literal closing tag or (when absent) the generic `<\/[^>]*>`.  Returns the
pair of the first capture group (the matched class keyword) and the second
capture group (the lazily captured element body). -/
def scanClassTag (openPat : List Char) (kws : List (List Char))
    (closeLit : Option (List Char)) : List Char → Option (List Char × List Char)
  | [] => none
  | c :: cs =>
    if ciStarts openPat (c :: cs) then
      match lSplitFirst ['>'] ((c :: cs).drop openPat.length) with
      | some (body, afterGt) =>
        match classKwInBody kws body with
        | some kw =>
          match
            (match closeLit with
             | some cl => (ciSplitFirst cl afterGt).map (·.1)
             | none => lazyCapToAnyClose afterGt) with
          | some cap => some (kw, cap)
          | none => scanClassTag openPat kws closeLit cs
        | none => scanClassTag openPat kws closeLit cs
      | none => scanClassTag openPat kws closeLit cs
    else scanClassTag openPat kws closeLit cs

/-! JSON-LD extraction, from `extractJsonLD` in `src/parse.ts`: every
`<script type="application/ld+json">` block is parsed as JSON independently and
malformed blocks are skipped.  `JSON.parse` is a host primitive, embedded here
as a recursive-descent parser into a loosely-typed document type. -/

/-- Does a `<script ...>` tag body carry `type="application/ld+json"` (either
quote style, case-insensitive)? -/
def bodyHasLdType : List Char → Bool
  | [] => false
  | c :: cs =>
    (if ciStarts "type=".data (c :: cs) then
      match (c :: cs).drop 5 with
      | q :: r =>
        isQuoteChar q && ciStarts "application/ld+json".data r &&
          (match r.drop 19 with
           | q2 :: _ => isQuoteChar q2
           | [] => false)
      | [] => false
    else false)
    || bodyHasLdType cs

/-- Global collection of the raw JSON-LD script block contents, the capture of
`<script[^>]*type=["']application\/ld\+json["'][^>]*>([\s\S]*?)<\/script>`
iterated over the document. -/
def collectLdBlocks (fuel : Nat) (s : List Char) : List (List Char) :=
  match fuel, s with
  | 0, _ => []
  | _, [] => []
  | f + 1, c :: cs =>
    if ciStarts "<script".data (c :: cs) then
      match lSplitFirst ['>'] ((c :: cs).drop 7) with
      | some (body, afterGt) =>
        if bodyHasLdType body then
          match ciSplitFirst "</script>".data afterGt with
          | some (cap, rest) => cap :: collectLdBlocks f rest
          | none => collectLdBlocks f cs
        else collectLdBlocks f cs
      | none => collectLdBlocks f cs
    else collectLdBlocks f cs

/-- Loosely-typed JSON documents; numeric literals keep their lexeme, which is
enough for the truthiness tests the source performs on them. -/
inductive Json
  | null
  | bool (b : Bool)
  | num (lexeme : String)
  | str (s : String)
  | arr (elems : List Json)
  | obj (fields : List (String × Json))

def lbrace : Char := Char.ofNat 123

def rbrace : Char := Char.ofNat 125

/-- JSON insignificant whitespace. -/
def jsonWs (c : Char) : Bool := c == ' ' || c == '\t' || c == '\n' || c == '\r'

def isDigitCh (c : Char) : Bool := decide ('0' ≤ c) && decide (c ≤ '9')

def hexDigitVal (c : Char) : Option Nat :=
  if isDigitCh c then some (c.toNat - 48)
  else if decide ('a' ≤ c.toLower) && decide (c.toLower ≤ 'f') then some (c.toLower.toNat - 87)
  else none

/-- Body of a JSON string after its opening quote: returns the decoded
characters and the remainder after the closing quote. -/
def parseJstr (fuel : Nat) (s : List Char) : Option (List Char × List Char) :=
  match fuel, s with
  | 0, _ => none
  | _, [] => none
  | f + 1, c :: cs =>
    if c == '"' then some ([], cs)
    else if c == '\\' then
      match cs with
      | e :: cs2 =>
        if e == '"' || e == '\\' || e == '/' then
          (parseJstr f cs2).map (fun r => (e :: r.1, r.2))
        else if e == 'b' then (parseJstr f cs2).map (fun r => ('\x08' :: r.1, r.2))
        else if e == 'f' then (parseJstr f cs2).map (fun r => ('\x0c' :: r.1, r.2))
        else if e == 'n' then (parseJstr f cs2).map (fun r => ('\n' :: r.1, r.2))
        else if e == 'r' then (parseJstr f cs2).map (fun r => ('\r' :: r.1, r.2))
        else if e == 't' then (parseJstr f cs2).map (fun r => ('\t' :: r.1, r.2))
        else if e == 'u' then
          match cs2 with
          | h1 :: h2 :: h3 :: h4 :: cs3 =>
            match hexDigitVal h1, hexDigitVal h2, hexDigitVal h3, hexDigitVal h4 with
            | some a, some b, some d, some e4 =>
              (parseJstr f cs3).map
                (fun r => (Char.ofNat (((a * 16 + b) * 16 + d) * 16 + e4) :: r.1, r.2))
            | _, _, _, _ => none
          | _ => none
        else none
      | [] => none
    else (parseJstr f cs).map (fun r => (c :: r.1, r.2))

/-- A liberal JSON number lexeme: optional sign, digits, optional fraction and
exponent. -/
def numLexeme (s : List Char) : Option (List Char × List Char) :=
  let signed := match s with
    | c :: cs => if c == '-' then ([c], cs) else (([] : List Char), s)
    | [] => (([] : List Char), ([] : List Char))
  let intp := signed.2.takeWhile isDigitCh
  let r2 := signed.2.dropWhile isDigitCh
  if intp.isEmpty then none
  else
    let fracp := match r2 with
      | c :: cs => if c == '.' then (c :: cs.takeWhile isDigitCh, cs.dropWhile isDigitCh) else (([] : List Char), r2)
      | [] => (([] : List Char), r2)
    let expp := match fracp.2 with
      | c :: cs =>
        if c == 'e' || c == 'E' then
          match cs with
          | d :: ds =>
            if d == '+' || d == '-' then (c :: d :: ds.takeWhile isDigitCh, ds.dropWhile isDigitCh)
            else (c :: cs.takeWhile isDigitCh, cs.dropWhile isDigitCh)
          | [] => ([c], ([] : List Char))
        else (([] : List Char), fracp.2)
      | [] => (([] : List Char), fracp.2)
    some (signed.1 ++ intp ++ fracp.1 ++ expp.1, expp.2)

mutual

/-- One JSON value with its remainder. -/
def parseJval : Nat → List Char → Option (Json × List Char)
  | 0, _ => none
  | f + 1, s =>
    let t := s.dropWhile jsonWs
    match t with
    | [] => none
    | c :: cs =>
      if c == '"' then
        match parseJstr (cs.length + 1) cs with
        | some (str, rest) => some (.str ⟨str⟩, rest)
        | none => none
      else if c == lbrace then parseJobjFields f cs []
      else if c == '[' then parseJarrElems f cs []
      else if lStarts "true".data t then some (.bool true, t.drop 4)
      else if lStarts "false".data t then some (.bool false, t.drop 5)
      else if lStarts "null".data t then some (.null, t.drop 4)
      else
        match numLexeme t with
        | some (lx, rest) => some (.num ⟨lx⟩, rest)
        | none => none

/-- Members of a JSON object after its opening brace (or after a comma). -/
def parseJobjFields : Nat → List Char → List (String × Json) → Option (Json × List Char)
  | 0, _, _ => none
  | f + 1, s, acc =>
    let t := s.dropWhile jsonWs
    match t with
    | [] => none
    | c :: cs =>
      if c == rbrace && acc.isEmpty then some (.obj acc.reverse, cs)
      else if c == '"' then
        match parseJstr (cs.length + 1) cs with
        | some (key, r1) =>
          (match r1.dropWhile jsonWs with
           | ':' :: r3 =>
             (match parseJval f r3 with
              | some (v, r4) =>
                (match r4.dropWhile jsonWs with
                 | ',' :: r6 => parseJobjFields f r6 ((⟨key⟩, v) :: acc)
                 | d :: r7 =>
                   if d == rbrace then some (.obj (((⟨key⟩ : String), v) :: acc).reverse, r7)
                   else none
                 | [] => none)
              | none => none)
           | _ => none)
        | none => none
      else none

/-- Elements of a JSON array after its opening bracket (or after a comma). -/
def parseJarrElems : Nat → List Char → List Json → Option (Json × List Char)
  | 0, _, _ => none
  | f + 1, s, acc =>
    let t := s.dropWhile jsonWs
    match t with
    | [] => none
    | c :: cs =>
      if c == ']' && acc.isEmpty then some (.arr acc.reverse, cs)
      else
        match parseJval f t with
        | some (v, r1) =>
          (match r1.dropWhile jsonWs with
           | ',' :: r3 => parseJarrElems f r3 (v :: acc)
           | d :: r3 => if d == ']' then some (.arr (v :: acc).reverse, r3) else none
           | [] => none)
        | none => none

end

/-- The embedding of `JSON.parse`: one value consuming the whole input up to
trailing whitespace, `none` on malformed input. -/
def jsonParse (s : String) : Option Json :=
  match parseJval (s.data.length * 2 + 8) s.data with
  | some (v, rest) => if (rest.dropWhile jsonWs).isEmpty then some v else none
  | none => none

/-- The source's `extractJsonLD`: parse every JSON-LD block, silently dropping
the malformed ones. -/
def extractJsonLD (html : String) : List Json :=
  ((collectLdBlocks (html.data.length + 1) html.data).map (fun raw => jsonParse ⟨raw⟩)).filterMap id

/-- Safe field access on a loosely-typed document (absent on non-objects). -/
def Json.getField : Json → String → Option Json
  | .obj fs, key => (fs.find? (fun f => f.1 == key)).map (·.2)
  | _, _ => none

/-- Does a numeric lexeme denote zero (the only falsy number)? -/
def isZeroLex (s : String) : Bool :=
  ((s.data.filter (fun c => !(c == '-' || c == '+' || c == '.'))).takeWhile
    (fun c => !(c == 'e' || c == 'E'))).all (fun c => c == '0')

/-- JavaScript truthiness of a JSON value. -/
def jsTruthy : Json → Bool
  | .null => false
  | .bool b => b
  | .str s => s != ""
  | .num lx => !isZeroLex lx
  | .arr _ => true
  | .obj _ => true

/-- The JSON-LD step of `extractAuthor`: the first block with a truthy
`author` yields either the author string itself or the `name` field of an
author object (the source's declared types make both strings; non-string
truthy values would already violate the source's annotations and are not
modelled). -/
def jsonLdAuthor : List Json → Option String
  | [] => none
  | j :: rest =>
    match j.getField "author" with
    | some a =>
      if jsTruthy a then
        match a with
        | .str s => some s
        | _ =>
          match a.getField "name" with
          | some (.str s) => if s != "" then some s else jsonLdAuthor rest
          | _ => jsonLdAuthor rest
      else jsonLdAuthor rest
    | none => jsonLdAuthor rest

/-- Truthy string field of one JSON-LD block. -/
def jsonStrField (j : Json) (key : String) : Option String :=
  match j.getField key with
  | some (.str s) => if s != "" then some s else none
  | _ => none

/-- The JSON-LD step of `extractPublishDate`: per block, the chain
`datePublished || dateCreated || publishedAt`, returned when truthy. -/
def jsonLdDate : List Json → Option String
  | [] => none
  | j :: rest =>
    match jsonStrField j "datePublished" with
    | some s => some s
    | none =>
      match jsonStrField j "dateCreated" with
      | some s => some s
      | none =>
        match jsonStrField j "publishedAt" with
        | some s => some s
        | none => jsonLdDate rest

/-! Field extractors of `src/parse.ts`. -/

/-- The element-with-author-class step of `extractAuthor`, the regex
`<[^>]*class="[^"]*(author|byline|writer)[^"]*"[^>]*>([\s\S]*?)<\/[^>]*>`; the
source uses the second capture group (the element body), cleans it, and accepts
it only when nonempty and shorter than 100 characters. -/
def authorFromClass (html : String) : Option String :=
  match scanClassTag "<".data ["author".data, "byline".data, "writer".data] none html.data with
  | some (_, cap) =>
    if cap ≠ [] then
      let a := cleanText ⟨cap⟩
      if a ≠ "" ∧ a.length < 100 then some a else none
    else none
  | none => none

/-- Occurrence of `KEY"VALUE"` (either quote) anywhere in a tag body. -/
def attrQVQInBody (key value : List Char) : List Char → Bool
  | [] => false
  | c :: cs => (attrValHere key value (c :: cs)).isSome || attrQVQInBody key value cs

/-- The `rel="author"` link step of `extractAuthor`, the regex
`<[^>]*rel=["']author["'][^>]*>([\s\S]*?)<\/[^>]*>`. -/
def scanRelAuthor : List Char → Option (List Char)
  | [] => none
  | c :: cs =>
    if c == '<' then
      match lSplitFirst ['>'] cs with
      | some (body, afterGt) =>
        if attrQVQInBody "rel=".data "author".data body then
          match lazyCapToAnyClose afterGt with
          | some cap => some cap
          | none => scanRelAuthor cs
        else scanRelAuthor cs
      | none => scanRelAuthor cs
    else scanRelAuthor cs

/-- The source's `extractAuthor`: meta tags `author`, `article:author`,
`twitter:creator` (first nonempty), then the `rel="author"` link text, then
JSON-LD, then the author-class pattern, else null. -/
def extractAuthor (html : String) : Option String :=
  let m1 := extractMetaTag "author" html
  let m2 := if m1 ≠ "" then m1 else extractMetaTag "article:author" html
  let m3 := if m2 ≠ "" then m2 else extractMetaTag "twitter:creator" html
  if m3 ≠ "" then some m3
  else
    let tail :=
      match jsonLdAuthor (extractJsonLD html) with
      | some s => some s
      | none => authorFromClass html
    match scanRelAuthor html.data with
    | some cap =>
      if cap ≠ [] then
        let a := cleanText ⟨cap⟩
        if a ≠ "" then some a else tail
      else tail
    | none => tail

/-- The `<time datetime="...">` step of `extractPublishDate`, the regex
`<time[^>]*datetime=["']([^"']+)["'][^>]*>`; the capture is returned raw. -/
def scanTimeDatetime : List Char → Option (List Char)
  | [] => none
  | c :: cs =>
    if ciStarts "<time".data (c :: cs) then
      match lSplitFirst ['>'] ((c :: cs).drop 5) with
      | some (body, _) =>
        match findCap "datetime=".data body with
        | some (cap, _) => some cap
        | none => scanTimeDatetime cs
      | none => scanTimeDatetime cs
    else scanTimeDatetime cs

/-- The source's `extractPublishDate`: meta tags `article:published_time`,
`pubdate`, `date` (first nonempty), then the `<time datetime>` attribute, then
JSON-LD dates; null if nothing is found.  No date parsing is attempted. -/
def extractPublishDate (html : String) : Option String :=
  let m1 := extractMetaTag "article:published_time" html
  let m2 := if m1 ≠ "" then m1 else extractMetaTag "pubdate" html
  let m3 := if m2 ≠ "" then m2 else extractMetaTag "date" html
  if m3 ≠ "" then some m3
  else
    match scanTimeDatetime html.data with
    | some cap => some ⟨cap⟩
    | none => jsonLdDate (extractJsonLD html)

/-- Quoted value opening of the semantic-summary pattern: a quote, a keyword
at the very start of the value (the source regex has no wildcard before the
keyword group), then non-quote characters and a closing quote. -/
def checkQKw (kws : List (List Char)) (s : List Char) : Bool :=
  match s with
  | q :: r =>
    if isQuoteChar q then
      match kwHere kws r with
      | some _ => !((r.dropWhile (fun ch => !isQuoteChar ch)).isEmpty)
      | none => false
    else false
  | [] => false

/-- Occurrence, inside a tag body, of `id=` or `class=` whose quoted value
starts with one of `kws` (alternation order `id` before `class`). -/
def idClassStartKwBody (kws : List (List Char)) : List Char → Bool
  | [] => false
  | c :: cs =>
    (if ciStarts "id=".data (c :: cs) then checkQKw kws ((c :: cs).drop 3)
     else if ciStarts "class=".data (c :: cs) then checkQKw kws ((c :: cs).drop 6)
     else false)
    || idClassStartKwBody kws cs

/-- The semantic-summary element step of `extractSummary`, the regex
`<[^>]*(id|class)=["'](?:speakable-summary|lead|summary|excerpt|abstract)[^"']*["'][^>]*>([\s\S]*?)<\/[^>]*>`;
returns the second capture group. -/
def scanSemanticTag (kws : List (List Char)) : List Char → Option (List Char)
  | [] => none
  | c :: cs =>
    if c == '<' then
      match lSplitFirst ['>'] cs with
      | some (body, afterGt) =>
        if idClassStartKwBody kws body then
          match lazyCapToAnyClose afterGt with
          | some cap => some cap
          | none => scanSemanticTag kws cs
        else scanSemanticTag kws cs
      | none => scanSemanticTag kws cs
    else scanSemanticTag kws cs

/-- The cleaned text of the semantic summary element, or the empty string. -/
def semanticSummary (html : String) : String :=
  match
    scanSemanticTag
      ["speakable-summary".data, "lead".data, "summary".data, "excerpt".data, "abstract".data]
      html.data with
  | some cap => if cap ≠ [] then cleanText ⟨cap⟩ else ""
  | none => ""

/-- The first-paragraph step of `extractSummary`: the first `<p[^>]*>` block of
the whole document, cleaned, accepted only when its length is strictly between
50 and 300; the empty string otherwise. -/
def firstParagraphFallback (html : String) : String :=
  match firstTagBlock "<p".data "</p>".data html.data with
  | some cap =>
    if cap ≠ [] then
      let t := cleanText ⟨cap⟩
      if 50 < t.length ∧ t.length < 300 then t else ""
    else ""
  | none => ""

/-- The source's `extractSummary`: meta tags `description`, `og:description`,
`twitter:description` (first nonempty), then the semantic summary element,
then the first-paragraph fallback. -/
def extractSummary (html : String) : String :=
  if extractMetaTag "description" html ≠ "" then extractMetaTag "description" html
  else if extractMetaTag "og:description" html ≠ "" then extractMetaTag "og:description" html
  else if extractMetaTag "twitter:description" html ≠ "" then
    extractMetaTag "twitter:description" html
  else if semanticSummary html ≠ "" then semanticSummary html
  else firstParagraphFallback html

/-- The `<h1>` step of `extractTitle`: first `<h1[^>]*>([\s\S]*?)<\/h1>`
block, cleaned; empty when absent or empty. -/
def h1Title (html : String) : String :=
  match firstTagBlock "<h1".data "</h1>".data html.data with
  | some cap => if cap ≠ [] then cleanText ⟨cap⟩ else ""
  | none => ""

/-- Separator class `[|\-—]` of the site-name suffix regex. -/
def isSepChar (c : Char) : Bool := c == '|' || c == '-' || c == '—'

/-- Does the site-name suffix pattern `\s*[|\-—]\s*[^|]+$` match starting
here?  Equivalently: after the leading whitespace run stands a separator, and
the nonempty remainder after the separator contains no pipe. -/
def siteSuffixAt (s : List Char) : Bool :=
  match s.dropWhile isJsWs with
  | sep :: rest => isSepChar sep && !rest.isEmpty && !rest.contains '|'
  | [] => false

/-- Replace of the site-name suffix by the empty string at its leftmost match
position (`String.prototype.replace` with a non-global regex). -/
def stripSiteName : List Char → List Char
  | [] => []
  | c :: cs => if siteSuffixAt (c :: cs) then [] else c :: stripSiteName cs

/-- The `<title>` step of `extractTitle`: the first `<title>` block, cleaned,
with the trailing site name removed and the result trimmed; empty when absent
or when nothing remains. -/
def titleTagTitle (html : String) : String :=
  match firstTagBlock "<title".data "</title>".data html.data with
  | some cap =>
    if cap ≠ [] then ⟨trimWs (stripSiteName (cleanText ⟨cap⟩).data)⟩ else ""
  | none => ""

/-- The source's `extractTitle`: `og:title` meta, then `twitter:title` meta,
then the first `<h1>`, then the `<title>` tag with its site-name suffix
stripped; the first nonempty cleaned candidate wins, else the empty string. -/
def extractTitle (html : String) : String :=
  if extractMetaTag "og:title" html ≠ "" then extractMetaTag "og:title" html
  else if extractMetaTag "twitter:title" html ≠ "" then extractMetaTag "twitter:title" html
  else if h1Title html ≠ "" then h1Title html
  else titleTagTitle html

/-- The source's `extractLanguage`: the regex
`<html[^>]*lang=["']([^"']+)["']`, else the literal `unknown`. -/
def scanHtmlLang : List Char → Option (List Char)
  | [] => none
  | c :: cs =>
    if ciStarts "<html".data (c :: cs) then
      match lSplitFirst ['>'] ((c :: cs).drop 5) with
      | some (body, _) =>
        match findCap "lang=".data body with
        | some (cap, _) => some cap
        | none => scanHtmlLang cs
      | none => scanHtmlLang cs
    else scanHtmlLang cs

def extractLanguage (html : String) : String :=
  match scanHtmlLang html.data with
  | some cap => ⟨cap⟩
  | none => "unknown"

/-- The canonical-link step of `extractSourceUrl`: inside a `<link ...>` tag
body, `rel="canonical"` (either quote) followed by a captured quoted `href`. -/
def relCanonHref : List Char → Option (List Char)
  | [] => none
  | c :: cs =>
    match attrValHere "rel=".data "canonical".data (c :: cs) with
    | some rest =>
      (match findCap "href=".data rest with
       | some (cap, _) => some cap
       | none => relCanonHref cs)
    | none => relCanonHref cs

def scanCanonical : List Char → Option (List Char)
  | [] => none
  | c :: cs =>
    if ciStarts "<link".data (c :: cs) then
      match lSplitFirst ['>'] ((c :: cs).drop 5) with
      | some (body, _) =>
        match relCanonHref body with
        | some cap => some cap
        | none => scanCanonical cs
      | none => scanCanonical cs
    else scanCanonical cs

/-- HTML-derived source URL: `og:url` meta, else the canonical link, else
empty. -/
def sourceUrlFromHtml (html : String) : String :=
  let og := extractMetaTag "og:url" html
  if og ≠ "" then og
  else
    match scanCanonical html.data with
    | some cap => ⟨cap⟩
    | none => ""

/-- The source's `extractSourceUrl`: a truthy (nonempty) caller-provided URL
wins; otherwise the HTML-derived value. -/
def extractSourceUrl (html : String) (providedUrl : Option String) : String :=
  match providedUrl with
  | some u => if u ≠ "" then u else sourceUrlFromHtml html
  | none => sourceUrlFromHtml html

/-! Main-content extraction, from `extractMainContent` in `src/parse.ts`. -/

/-- The boilerplate alternatives of the source's removal regex, in alternation
order: script, style, nav, header, footer, aside. -/
def unwantedPairs : List (List Char × List Char) :=
  [("<script".data, "</script>".data), ("<style".data, "</style>".data),
   ("<nav".data, "</nav>".data), ("<header".data, "</header>".data),
   ("<footer".data, "</footer>".data), ("<aside".data, "</aside>".data)]

/-- At the current position, try each boilerplate alternative; on success
return the remainder after the matched block. -/
def tryUnwantedAt (s : List Char) : List (List Char × List Char) → Option (List Char)
  | [] => none
  | (op, cl) :: rest =>
    if ciStarts op s then
      match lSplitFirst ['>'] (s.drop op.length) with
      | some (_, afterGt) =>
        match ciSplitFirst cl afterGt with
        | some (_, tail) => some tail
        | none => tryUnwantedAt s rest
      | none => tryUnwantedAt s rest
    else tryUnwantedAt s rest

/-- The boilerplate removal pass: global replace of the script, style, nav,
header, footer and aside blocks by nothing. -/
def removeUnwanted (fuel : Nat) (s : List Char) : List Char :=
  match fuel, s with
  | 0, rest => rest
  | _, [] => []
  | f + 1, c :: cs =>
    match tryUnwantedAt (c :: cs) unwantedPairs with
    | some tail => removeUnwanted f tail
    | none => c :: removeUnwanted f cs

/-- Tag-name alternation `(p|li|h[1-6]|blockquote)` of the paragraph regex. -/
def paraTags : List (List Char) :=
  ["p".data, "li".data, "h1".data, "h2".data, "h3".data, "h4".data, "h5".data,
   "h6".data, "blockquote".data]

/-- One attempt of the paragraph regex
`<(p|li|h[1-6]|blockquote)[^>]*>([\s\S]*?)<\/\1>` at the current position:
returns the captured body and the remainder after the closing tag.  The
backreference is matched case-insensitively, as the `i` flag prescribes. -/
def tryParaAt (s : List Char) : Option (List Char × List Char) :=
  match s with
  | c :: cs =>
    if c == '<' then
      match kwHere paraTags cs with
      | some tag =>
        match lSplitFirst ['>'] (cs.drop tag.length) with
        | some (_, afterGt) =>
          (match ciSplitFirst ('<' :: '/' :: (tag ++ ['>'])) afterGt with
           | some (cap, rest) => some (cap, rest)
           | none => none)
        | none => none
      | none => none
    else none
  | [] => none

/-- Global iteration of the paragraph regex, collecting the captured bodies. -/
def collectParas (fuel : Nat) (s : List Char) : List (List Char) :=
  match fuel, s with
  | 0, _ => []
  | _, [] => []
  | f + 1, c :: cs =>
    match tryParaAt (c :: cs) with
    | some (cap, rest) => cap :: collectParas f rest
    | none => collectParas f cs

/-- Class keywords of the third content wrapper pattern. -/
def contentKws1 : List (List Char) :=
  ["wp-block-post-content".data, "entry-content".data, "post-content".data,
   "article-content".data]

/-- Class keywords of the fourth content wrapper pattern. -/
def contentKws2 : List (List Char) := ["content".data, "post".data, "article".data]

/-- One step of the source's container selection loop:
`if (match && match[1] && match[1].length > bodyHtml.length) bodyHtml = match[1]`. -/
def pickLonger (acc : List Char) (m : Option (List Char)) : List Char :=
  match m with
  | some s => if s ≠ [] ∧ acc.length < s.length then s else acc
  | none => acc

/-- JavaScript `parts.join('\n\n')`. -/
def joinBlankLine : List String → String
  | [] => ""
  | [x] => x
  | x :: xs => x ++ "\n\n" ++ joinBlankLine xs

/-- The source's `extractMainContent`.  After boilerplate removal the four
wrapper patterns are matched; the loop compares and keeps `match[1]` of each.
For the `<article>` and `<main>` patterns the first capture group is the
element body, but for the two class-based patterns the first capture group is
the matched class keyword — the element body there is group 2.  The selected
text is then mined for paragraph-like blocks, whose cleaned texts longer than
40 characters are joined by blank lines. -/
def extractMainContent (html : String) : String :=
  let cleaned := removeUnwanted (html.data.length + 1) html.data
  let w1 := firstTagBlock "<article".data "</article>".data cleaned
  let w2 := firstTagBlock "<main".data "</main>".data cleaned
  let w3 := (scanClassTag "<".data contentKws1 none cleaned).map (·.1)
  let w4 := (scanClassTag "<div".data contentKws2 (some "</div>".data) cleaned).map (·.1)
  let body := pickLonger (pickLonger (pickLonger (pickLonger [] w1) w2) w3) w4
  let body2 := if body.isEmpty then cleaned else body
  let parts :=
    ((collectParas (body2.length + 1) body2).map (fun raw => cleanText ⟨raw⟩)).filter
      (fun t => t.length > 40)
  joinBlankLine parts

/-! Assembly, from `parseHtml` in `src/parse.ts`. -/

/-- The word counter of the assembler:
`content.split(/\s+/).filter(Boolean).length`, i.e. the number of nonempty
whitespace-separated tokens. -/
def countWords (s : String) : Nat :=
  ((s.split isJsWs).filter (fun t => t ≠ "")).length

inductive ContentType | article | shortForm | minimal
deriving DecidableEq

/-- The source's `determineContentType` thresholds. -/
def determineContentType (wordCount : Nat) : ContentType :=
  if wordCount > 500 then .article
  else if wordCount > 100 then .shortForm
  else .minimal

structure ContentData where
  title : String
  author : Option String
  publishDate : Option String
  summary : String
  content : String
  wordCount : Nat
  readingTime : Nat
  language : String
  contentType : ContentType
  deriving DecidableEq

structure ParsedContent where
  success : Bool
  extractedAt : String
  sourceUrl : String
  data : ContentData
  error : Option String
  deriving DecidableEq

/-- The zero-valued data record used by both failure paths of the source. -/
def zeroData : ContentData := ⟨"", none, none, "", "", 0, 0, "unknown", .minimal⟩

/-- JavaScript `url || ''` on the optional caller URL. -/
def urlOrEmpty : Option String → String
  | some u => u
  | none => ""

/-- The failure result shape shared by the precondition check and the catch
handler. -/
def failureResult (now sourceUrl msg : String) : ParsedContent :=
  ⟨false, now, sourceUrl, zeroData, some msg⟩

/-- The body of the source's try block: the precondition check, then every
extractor, then the derived metrics.  `now` is the invocation timestamp the
source obtains from `new Date().toISOString()`. -/
def parseBody (now html : String) (url : Option String) : ParsedContent :=
  if html = "" ∨ strContains html "<html" = false then
    failureResult now (urlOrEmpty url) "No valid HTML content found"
  else
    let sourceUrl := extractSourceUrl html url
    let title := extractTitle html
    let author := extractAuthor html
    let publishDate := extractPublishDate html
    let summary := extractSummary html
    let content := extractMainContent html
    let language := extractLanguage html
    let wordCount := countWords content
    let readingTime := (wordCount + 199) / 200
    let contentType := determineContentType wordCount
    ⟨true, now, sourceUrl,
      ⟨title, author, publishDate, summary, content, wordCount, readingTime, language,
        contentType⟩, none⟩

/-- A JavaScript thrown value as seen by the catch handler: an `Error` object
carrying a message, or any other thrown value. -/
inductive JsThrown | errObj (message : String) | nonError

/-- The catch handler's message selection:
`error instanceof Error ? error.message : 'Unknown parsing error'`. -/
def exnMessage : JsThrown → String
  | .errObj m => m
  | .nonError => "Unknown parsing error"

/-- The catch handler of `parseHtml`: a normal result passes through, a thrown
value becomes the zero-valued failure shape with the selected message. -/
def runCatch (now sourceUrl : String) : Except JsThrown ParsedContent → ParsedContent
  | .ok r => r
  | .error e => failureResult now sourceUrl (exnMessage e)

/-- The try block as a fallible computation.  Every operation the source
performs inside the try block is total in this embedding (string scanning,
arithmetic, and a JSON parser that returns an option), so the block always
returns normally; the catch path is exercised only by explicit `.error`
values. -/
def tryParseHtml (now html : String) (url : Option String) : Except JsThrown ParsedContent :=
  .ok (parseBody now html url)

/-- The source's `parseHtml`: the try block run under the catch handler. -/
def parseHtml (now html : String) (url : Option String) : ParsedContent :=
  runCatch now (urlOrEmpty url) (tryParseHtml now html url)

/-- The source's `batchParseHtml`: an independent parse per document. -/
def batchParseHtml (now : String) (docs : List (String × Option String)) : List ParsedContent :=
  docs.map (fun d => parseHtml now d.1 d.2)

/-! A reading of the specification used for comparison. -/

/-- Global collection of every `<p[^>]*>([\s\S]*?)<\/p>` block body. -/
def collectPBlocks (fuel : Nat) (s : List Char) : List (List Char) :=
  match fuel, s with
  | 0, _ => []
  | _, [] => []
  | f + 1, c :: cs =>
    if ciStarts "<p".data (c :: cs) then
      match lSplitFirst ['>'] ((c :: cs).drop 2) with
      | some (_, afterGt) =>
        match ciSplitFirst "</p>".data afterGt with
        | some (cap, rest) => cap :: collectPBlocks f rest
        | none => collectPBlocks f cs
      | none => collectPBlocks f cs
    else collectPBlocks f cs

/-- Modelled from the spec: the summary paragraph fallback described there is
the first paragraph of the document whose cleaned text length is strictly
between 50 and 300 characters.  This follows the specification's words and is
compared against the source's `extractSummary`, which only ever consults the
document's first paragraph. -/
def specFirstQualifyingParagraph (html : String) : Option String :=
  ((collectPBlocks (html.data.length + 1) html.data).map (fun raw => cleanText ⟨raw⟩)).find?
    (fun t => decide (50 < t.length) && decide (t.length < 300))

/-! Concrete documents used by the witnesses and counterexamples. -/

/-- A document carrying both an `og:title` meta tag and a different `<h1>`. -/
def titleWitnessHtml : String :=
  "<html><meta property=\"og:title\" content=\"OG Wins\"><h1>H1 Loses</h1></html>"

/-- The short article body (45 characters, above the 40-character filter). -/
def shortPara : String := "A compact body paragraph for the article tag."

/-- The long class-container body (80 characters). -/
def longPara : String :=
  "This much longer body paragraph lives inside the entry content division element."

/-- A document whose `<article>` body is shorter than the body of its
`entry-content` container. -/
def cexContentHtml : String :=
  "<html><article><p>" ++ shortPara ++ "</p></article><div class=\"entry-content\"><p>" ++
    longPara ++ "</p></div></html>"

/-- A second paragraph of qualifying length (65 characters). -/
def summaryLongText : String :=
  "This second paragraph easily exceeds the fifty character minimum."

/-- A document with no summary meta tags and no semantic summary element,
whose first paragraph is too short and whose second paragraph qualifies. -/
def cexSummaryHtml : String :=
  "<html><p>Too short.</p><p>" ++ summaryLongText ++ "</p></html>"

/-! Shared lemmas. -/

theorem parseHtml_eq_parseBody (now html : String) (url : Option String) :
    parseHtml now html url = parseBody now html url := rfl

theorem parseBody_extractedAt (now html : String) (url : Option String) :
    (parseBody now html url).extractedAt = now := by
  unfold parseBody
  split <;> rfl

theorem determineContentType_spec (wc : Nat) :
    (determineContentType wc = .article ↔ 500 < wc) ∧
    (determineContentType wc = .shortForm ↔ 100 < wc ∧ wc ≤ 500) ∧
    (determineContentType wc = .minimal ↔ wc ≤ 100) := by
  unfold determineContentType
  by_cases h1 : wc > 500
  · simp [h1]
    omega
  · by_cases h2 : wc > 100
    · simp [h1, h2]
      omega
    · simp [h1, h2]
      omega

/-! The claims. -/

/-- C1: for every result returned by `parseHtml`, `success = false` implies
all data fields hold their zero-values and the error field is present and
nonempty, and `success = true` implies the error field is absent. -/
theorem parseHtml_success_error_invariant (now html : String) (url : Option String) :
    ((parseHtml now html url).success = false →
      (parseHtml now html url).data = zeroData ∧
        ∃ m, (parseHtml now html url).error = some m ∧ m ≠ "") ∧
    ((parseHtml now html url).success = true → (parseHtml now html url).error = none) := by
  rw [parseHtml_eq_parseBody]
  unfold parseBody
  by_cases hc : html = "" ∨ strContains html "<html" = false
  · rw [if_pos hc]
    exact ⟨fun _ => ⟨rfl, ⟨"No valid HTML content found", rfl, by decide⟩⟩,
      fun h => by simp [failureResult] at h⟩
  · rw [if_neg hc]
    exact ⟨fun h => by simp at h, fun _ => rfl⟩

/-- Witness for C1 at a concrete input without HTML markup. -/
theorem parseHtml_success_error_invariant_witness :
    (parseHtml "2025-01-01" "no markup here" none).data = zeroData ∧
      ∃ m, (parseHtml "2025-01-01" "no markup here" none).error = some m ∧ m ≠ "" :=
  (parseHtml_success_error_invariant "2025-01-01" "no markup here" none).1 (by decide)

/-- C2: an empty input or one lacking the substring `<html` yields the fixed
zero-valued failure with error message `No valid HTML content found` and the
caller-provided URL (or empty string) as source URL. -/
theorem parseHtml_precondition (now html : String) (url : Option String)
    (h : html = "" ∨ strContains html "<html" = false) :
    parseHtml now html url =
      failureResult now (urlOrEmpty url) "No valid HTML content found" := by
  rw [parseHtml_eq_parseBody]
  unfold parseBody
  rw [if_pos h]

/-- Witness for C2 at a concrete input without the `<html` substring. -/
theorem parseHtml_precondition_witness :
    strContains "hello" "<html" = false ∧
      parseHtml "2025-01-01" "hello" (some "https://a.example") =
        failureResult "2025-01-01" "https://a.example" "No valid HTML content found" :=
  ⟨by decide, parseHtml_precondition "2025-01-01" "hello" (some "https://a.example")
    (Or.inr (by decide))⟩

/-- C3: `parseHtml` always returns a well-formed result (either success or the
fixed precondition failure — every operation of the try block is total), and
the catch handler turns any thrown value into a zero-valued failure whose
error is the thrown `Error`'s message, or `Unknown parsing error` when the
thrown value carries no message. -/
theorem parseHtml_never_raises (now html u : String) (url : Option String) (e : JsThrown) :
    ((parseHtml now html url).success = true ∨
      (parseHtml now html url).error = some "No valid HTML content found") ∧
    (runCatch now u (Except.error e)).success = false ∧
    (runCatch now u (Except.error e)).data = zeroData ∧
    (runCatch now u (Except.error e)).error = some (exnMessage e) ∧
    exnMessage (JsThrown.errObj "boom") = "boom" ∧
    exnMessage JsThrown.nonError = "Unknown parsing error" := by
  refine ⟨?_, rfl, rfl, rfl, rfl, rfl⟩
  rw [parseHtml_eq_parseBody]
  unfold parseBody
  by_cases hc : html = "" ∨ strContains html "<html" = false
  · rw [if_pos hc]
    exact Or.inr rfl
  · rw [if_neg hc]
    exact Or.inl rfl

/-- C4: `classify` is total over the six tags, deterministic, and evaluates
its rules in the fixed priority order on the lower-cased URL; in particular
the pdf extension check pre-empts the reddit rule. -/
theorem classify_total_and_priority (url : String) :
    (classify url = .pdf ∨ classify url = .x ∨ classify url = .reddit ∨
      classify url = .job ∨ classify url = .advertiser ∨ classify url = .article) ∧
    (pdfRule (jsToLower url) = true → classify url = .pdf) ∧
    (pdfRule (jsToLower url) = false → xRule (jsToLower url) = true → classify url = .x) ∧
    (pdfRule (jsToLower url) = false → xRule (jsToLower url) = false →
      redditRule (jsToLower url) = true → classify url = .reddit) ∧
    (pdfRule (jsToLower url) = false → xRule (jsToLower url) = false →
      redditRule (jsToLower url) = false → jobRule (jsToLower url) = true →
      classify url = .job) ∧
    (pdfRule (jsToLower url) = false → xRule (jsToLower url) = false →
      redditRule (jsToLower url) = false → jobRule (jsToLower url) = false →
      adRule (jsToLower url) = true → classify url = .advertiser) ∧
    (pdfRule (jsToLower url) = false → xRule (jsToLower url) = false →
      redditRule (jsToLower url) = false → jobRule (jsToLower url) = false →
      adRule (jsToLower url) = false → classify url = .article) ∧
    (strEndsWith (jsToLower url) ".pdf" = true ∧ redditRule (jsToLower url) = true →
      classify url = .pdf) := by
  refine ⟨?_, ?_, ?_, ?_, ?_, ?_, ?_, ?_⟩
  · by_cases h1 : pdfRule (jsToLower url) = true <;>
      by_cases h2 : xRule (jsToLower url) = true <;>
      by_cases h3 : redditRule (jsToLower url) = true <;>
      by_cases h4 : jobRule (jsToLower url) = true <;>
      by_cases h5 : adRule (jsToLower url) = true <;>
      simp [classify, h1, h2, h3, h4, h5]
  · intro h1
    simp [classify, h1]
  · intro h1 h2
    simp [classify, h1, h2]
  · intro h1 h2 h3
    simp [classify, h1, h2, h3]
  · intro h1 h2 h3 h4
    simp [classify, h1, h2, h3, h4]
  · intro h1 h2 h3 h4 h5
    simp [classify, h1, h2, h3, h4, h5]
  · intro h1 h2 h3 h4 h5
    simp [classify, h1, h2, h3, h4, h5]
  · intro h
    have hp : pdfRule (jsToLower url) = true := by
      unfold pdfRule
      rw [h.1]
      rfl
    simp [classify, hp]

/-- Witness for C4: a URL containing `reddit.com` and ending in `.pdf` is
classified pdf. -/
theorem classify_total_and_priority_witness :
    (strEndsWith (jsToLower "https://reddit.com/paper.pdf") ".pdf" = true ∧
      redditRule (jsToLower "https://reddit.com/paper.pdf") = true) ∧
    classify "https://reddit.com/paper.pdf" = .pdf :=
  ⟨⟨by decide, by decide⟩,
    (classify_total_and_priority "https://reddit.com/paper.pdf").2.2.2.2.2.2.2
      ⟨by decide, by decide⟩⟩

/-- C5: on every successful parse, wordCount counts the nonempty
whitespace-separated tokens of the content, readingTime is the ceiling of
wordCount over 200, and contentType follows the word-count thresholds
(article above 500, short-form above 100 up to 500, minimal up to 100). -/
theorem parseHtml_metrics (now html : String) (url : Option String)
    (h : (parseHtml now html url).success = true) :
    (parseHtml now html url).data.wordCount =
        countWords (parseHtml now html url).data.content ∧
    (parseHtml now html url).data.readingTime =
        ((parseHtml now html url).data.wordCount + 199) / 200 ∧
    ((parseHtml now html url).data.contentType = .article ↔
        500 < (parseHtml now html url).data.wordCount) ∧
    ((parseHtml now html url).data.contentType = .shortForm ↔
        100 < (parseHtml now html url).data.wordCount ∧
          (parseHtml now html url).data.wordCount ≤ 500) ∧
    ((parseHtml now html url).data.contentType = .minimal ↔
        (parseHtml now html url).data.wordCount ≤ 100) := by
  by_cases hc : html = "" ∨ strContains html "<html" = false
  · rw [parseHtml_eq_parseBody] at h
    unfold parseBody at h
    rw [if_pos hc] at h
    simp [failureResult] at h
  · rw [parseHtml_eq_parseBody]
    unfold parseBody
    rw [if_neg hc]
    exact ⟨rfl, rfl, (determineContentType_spec _).1, (determineContentType_spec _).2.1,
      (determineContentType_spec _).2.2⟩

/-- Witness for C5 at a minimal valid document. -/
theorem parseHtml_metrics_witness :
    (parseHtml "2025-01-01" "<html></html>" none).success = true ∧
      (parseHtml "2025-01-01" "<html></html>" none).data.readingTime =
        ((parseHtml "2025-01-01" "<html></html>" none).data.wordCount + 199) / 200 :=
  ⟨by decide, (parseHtml_metrics "2025-01-01" "<html></html>" none (by decide)).2.1⟩

/-- C6: title extraction tries og:title, then twitter:title, then the first
h1, then the title tag with its site suffix stripped, and returns the first
nonempty cleaned candidate; in particular whenever the og:title candidate is
nonempty it is returned whatever the h1 says. -/
theorem extractTitle_priority (html : String) :
    (extractMetaTag "og:title" html ≠ "" →
      extractTitle html = extractMetaTag "og:title" html) ∧
    (extractMetaTag "og:title" html = "" → extractMetaTag "twitter:title" html ≠ "" →
      extractTitle html = extractMetaTag "twitter:title" html) ∧
    (extractMetaTag "og:title" html = "" → extractMetaTag "twitter:title" html = "" →
      h1Title html ≠ "" → extractTitle html = h1Title html) ∧
    (extractMetaTag "og:title" html = "" → extractMetaTag "twitter:title" html = "" →
      h1Title html = "" → extractTitle html = titleTagTitle html) := by
  refine ⟨fun h1 => ?_, fun h1 h2 => ?_, fun h1 h2 h3 => ?_, fun h1 h2 h3 => ?_⟩
  all_goals simp [extractTitle, *]

/-- Witness for C6: a document with both an og:title meta tag and a different
h1 keeps the og:title value. -/
theorem extractTitle_priority_witness :
    extractMetaTag "og:title" titleWitnessHtml = "OG Wins" ∧
      h1Title titleWitnessHtml = "H1 Loses" ∧
      extractTitle titleWitnessHtml = extractMetaTag "og:title" titleWitnessHtml :=
  ⟨by decide, by decide, (extractTitle_priority titleWitnessHtml).1 (by decide)⟩

/-- C7 at the failing input: the document's `entry-content` container body
(87 characters wrapped) is longer than its `<article>` body (52 characters
wrapped), yet the extracted content comes from the article, because the
selection loop compares `match[1]`, which for the class-based patterns is the
class keyword (here the 13-character string `entry-content`), not the element
body. -/
theorem extractMainContent_class_container_bug :
    extractMainContent cexContentHtml = shortPara ∧
    (scanClassTag "<".data contentKws1 none cexContentHtml.data).map (·.1) =
      some "entry-content".data ∧
    ("<p>" ++ longPara ++ "</p>").length > ("<p>" ++ shortPara ++ "</p>").length ∧
    shortPara ≠ longPara :=
  ⟨by decide, by decide, by decide, by decide⟩

/-- C8 (amended): with no summary meta tags and no semantic summary element,
the summary is the first-paragraph fallback — the cleaned text of the
document's first paragraph when its length is strictly between 50 and 300
characters, and the empty string otherwise (later paragraphs are never
consulted). -/
theorem extractSummary_fallback (html : String)
    (h1 : extractMetaTag "description" html = "")
    (h2 : extractMetaTag "og:description" html = "")
    (h3 : extractMetaTag "twitter:description" html = "")
    (h4 : semanticSummary html = "") :
    extractSummary html = firstParagraphFallback html := by
  simp [extractSummary, h1, h2, h3, h4]

/-- C8 counterexample: a document with no summary meta tags and no semantic
summary element whose first paragraph is too short while its second paragraph
qualifies; the claim's first-qualifying-paragraph reading yields that second
paragraph's text, but the source returns the empty string. -/
theorem extractSummary_not_first_qualifying :
    extractMetaTag "description" cexSummaryHtml = "" ∧
    extractMetaTag "og:description" cexSummaryHtml = "" ∧
    extractMetaTag "twitter:description" cexSummaryHtml = "" ∧
    semanticSummary cexSummaryHtml = "" ∧
    specFirstQualifyingParagraph cexSummaryHtml = some summaryLongText ∧
    extractSummary cexSummaryHtml = "" ∧
    summaryLongText ≠ "" :=
  ⟨by decide, by decide, by decide, by decide, by decide, by decide, by decide⟩

/-- Witness for the amended C8 at the two-paragraph document. -/
theorem extractSummary_fallback_witness :
    semanticSummary cexSummaryHtml = "" ∧
      extractSummary cexSummaryHtml = firstParagraphFallback cexSummaryHtml :=
  ⟨by decide,
    extractSummary_fallback cexSummaryHtml (by decide) (by decide) (by decide) (by decide)⟩

/-- C9 counterexample: two invocations on the same (html, url) pair at
different ambient times return different results — the extractedAt field
records the clock, so the result is not fully determined by the input pair. -/
theorem parseHtml_differs_across_invocations :
    parseHtml "2025-01-01T00:00:00.000Z" "<html></html>" none ≠
      parseHtml "2025-01-02T00:00:00.000Z" "<html></html>" none := by
  intro h
  have h2 := congrArg ParsedContent.extractedAt h
  rw [parseHtml_eq_parseBody, parseHtml_eq_parseBody, parseBody_extractedAt,
    parseBody_extractedAt] at h2
  exact absurd h2 (by decide)

/-- C9 (amended): every field except extractedAt is a function of the (html,
url) input pair alone, and extractedAt records exactly the invocation's
ambient timestamp. -/
theorem parseHtml_deterministic_data (t1 t2 html : String) (url : Option String) :
    (parseHtml t1 html url).success = (parseHtml t2 html url).success ∧
    (parseHtml t1 html url).sourceUrl = (parseHtml t2 html url).sourceUrl ∧
    (parseHtml t1 html url).data = (parseHtml t2 html url).data ∧
    (parseHtml t1 html url).error = (parseHtml t2 html url).error ∧
    (parseHtml t1 html url).extractedAt = t1 := by
  rw [parseHtml_eq_parseBody, parseHtml_eq_parseBody]
  refine ⟨?_, ?_, ?_, ?_, parseBody_extractedAt t1 html url⟩ <;>
    by_cases hc : html = "" ∨ strContains html "<html" = false <;>
      simp [parseBody, hc, failureResult]

/-- C10 counterexample: a URL containing `x.com` that the pdf rule captures
first is classified pdf, not x. -/
theorem classify_substring_claim_false :
    strContains (jsToLower "https://x.com/doc.pdf") "x.com" = true ∧
    classify "https://x.com/doc.pdf" = .pdf ∧
    classify "https://x.com/doc.pdf" ≠ .x :=
  ⟨by decide, by decide, by decide⟩

/-- C10 (amended): classification pattern-matches the entire lower-cased URL
string rather than a parsed host: when no earlier rule fires, `x.com` or
`twitter.com` anywhere tags x (so a host of `linux.com` is tagged x),
`reddit.com` anywhere tags reddit, and the substring `ad` anywhere — path and
query included — tags advertiser. -/
theorem classify_matches_whole_url (url : String) :
    (pdfRule (jsToLower url) = false → strContains (jsToLower url) "x.com" = true →
      classify url = .x) ∧
    (pdfRule (jsToLower url) = false → strContains (jsToLower url) "twitter.com" = true →
      classify url = .x) ∧
    (pdfRule (jsToLower url) = false → xRule (jsToLower url) = false →
      strContains (jsToLower url) "reddit.com" = true → classify url = .reddit) ∧
    (pdfRule (jsToLower url) = false → xRule (jsToLower url) = false →
      redditRule (jsToLower url) = false → jobRule (jsToLower url) = false →
      strContains (jsToLower url) "ad" = true → classify url = .advertiser) ∧
    classify "https://linux.com/news" = .x ∧
    classify "https://example.org/upload" = .advertiser := by
  refine ⟨?_, ?_, ?_, ?_, by decide, by decide⟩
  · intro h1 h2
    have hx : xRule (jsToLower url) = true := by simp [xRule, h2]
    simp [classify, h1, hx]
  · intro h1 h2
    have hx : xRule (jsToLower url) = true := by simp [xRule, h2]
    simp [classify, h1, hx]
  · intro h1 h2 h3
    have hr : redditRule (jsToLower url) = true := by simp [redditRule, h3]
    simp [classify, h1, h2, hr]
  · intro h1 h2 h3 h4 h5
    have ha : adRule (jsToLower url) = true := by simp [adRule, h5]
    simp [classify, h1, h2, h3, h4, ha]

/-- Witness for the amended C10: a URL whose host is `linux.com`. -/
theorem classify_matches_whole_url_witness :
    pdfRule (jsToLower "https://linux.com/blog") = false ∧
      strContains (jsToLower "https://linux.com/blog") "x.com" = true ∧
      classify "https://linux.com/blog" = .x :=
  ⟨by decide, by decide,
    (classify_matches_whole_url "https://linux.com/blog").1 (by decide) (by decide)⟩

end FilterBurgers
